import Mathlib

/-!
Verification of the extraction-and-identity pipeline of the
stadt-karlsruhe-syndication scraper, as a shallow embedding in Lean.

The embedding follows the TypeScript sources:
* tracking reconciliation: `src/services/tracking.service.ts` (in-place
  variant) and the immutable variant of `TrackingService.detectChanges`
  (service-decomposed version, bundled with `src/services/parser.service.ts`);
* identity generation: `src/utils/id-generator.utils.ts`;
* German date parsing: `GermanDateParser` with `GERMAN_MONTHS` from
  `src/config/constants.ts` and helpers from `date.utils.ts`;
* content extraction: `src/services/content-extractor.service.ts`;
* listing parsing: `src/services/parser.service.ts`.

JavaScript strings are modelled as Lean `String`s, JS objects used as
string-keyed dictionaries as functions `String → Option _`, and `Date`
values as either epoch-millisecond integers or locally-constructed civil
dates, matching how the source produces them.
-/

/-! ## Data model (`schemas/article.ts`) -/

/-- Article as consumed by the tracking reconciler: only the fields the
reconciler reads (`id`, `link`) plus identity-irrelevant payload. -/
structure Article where
  id : String
  title : String
  link : String
  description : String
  content : String
  deriving DecidableEq, Repr

/-- TrackingEntry from `schemas/article.ts`: `{contentHash, lastSeen, link}`. -/
structure TrackingEntry where
  contentHash : String
  lastSeen : String
  link : String
  deriving DecidableEq, Repr

/-- TrackingData: the JSON object mapping content hashes to entries,
modelled extensionally as a partial map. -/
abbrev TrackingData := String → Option TrackingEntry

/-- Property write `obj[k] = v` on a JS object modelled as a map update. -/
def TrackingData.write (t : TrackingData) (k : String) (v : TrackingEntry) : TrackingData :=
  fun k2 => if k2 = k then some v else t k2

/-- TrackingEntryFactory.create from `src/utils/tracking-entry.factory.ts`
(with `lastSeen` always supplied by the caller, as `detectChanges` does). -/
def TrackingEntryFactory.create (contentHash link lastSeen : String) : TrackingEntry :=
  { contentHash := contentHash, lastSeen := lastSeen, link := link }

/-! ## Tracking reconciler, in-place variant (`src/services/tracking.service.ts`)

The loop body mutates the caller-supplied `tracking` object.  The loop is
embedded as a fold over an explicit state holding the accumulator lists,
the unchanged counter, and the (single, aliased) store. -/

/-- Loop state of the in-place `TrackingService.detectChanges`. -/
structure MutResult where
  newArticles : List Article
  updated : List Article
  unchanged : Nat
  tracking : TrackingData

/-- One iteration of the `for (const article of articles)` loop of the
in-place `detectChanges`: the lookup and the writes both target the same
`tracking` object. -/
def detectChangesMutStep (now : String) (s : MutResult) (a : Article) : MutResult :=
  match s.tracking a.id with
  | none =>
      { s with
        newArticles := s.newArticles ++ [a]
        tracking := s.tracking.write a.id
          { contentHash := a.id, lastSeen := now, link := a.link } }
  | some existing =>
      if existing.link ≠ a.link then
        { s with
          updated := s.updated ++ [a]
          tracking := s.tracking.write a.id
            { contentHash := a.id, lastSeen := now, link := a.link } }
      else
        { s with
          unchanged := s.unchanged + 1
          tracking := s.tracking.write a.id { existing with lastSeen := now } }

/-- In-place `TrackingService.detectChanges` (`tracking.service.ts`), with the
single `now = new Date().toISOString()` sample passed in explicitly.  The
final `tracking` field is the state of the caller's (mutated) store. -/
def detectChangesMut (articles : List Article) (tracking : TrackingData)
    (now : String) : MutResult :=
  articles.foldl (detectChangesMutStep now)
    { newArticles := [], updated := [], unchanged := 0, tracking := tracking }

/-! ## Tracking reconciler, immutable variant

This is the `TrackingService.detectChanges` of the service-decomposed
version (source doc comment: "Returns a new tracking data object without
mutating the input").  Lookups go to the caller's `tracking`; writes go to
the fresh copy `updatedTracking = { ...tracking }`.  The loop state keeps
both bindings so that the absence of writes to `tracking` is visible in
the embedding. -/

/-- Loop state of the immutable `detectChanges`: `tracking` is the caller's
store binding (only ever read), `updatedTracking` the fresh copy. -/
structure ImmResult where
  newArticles : List Article
  updated : List Article
  unchanged : Nat
  tracking : TrackingData
  updatedTracking : TrackingData

/-- One iteration of the loop of the immutable `detectChanges`: the lookup
`tracking[article.id]` reads the caller's store, every write targets
`updatedTracking`. -/
def detectChangesImmStep (now : String) (s : ImmResult) (a : Article) : ImmResult :=
  match s.tracking a.id with
  | none =>
      { s with
        newArticles := s.newArticles ++ [a]
        updatedTracking := s.updatedTracking.write a.id
          (TrackingEntryFactory.create a.id a.link now) }
  | some existing =>
      if existing.link ≠ a.link then
        { s with
          updated := s.updated ++ [a]
          updatedTracking := s.updatedTracking.write a.id
            (TrackingEntryFactory.create a.id a.link now) }
      else
        { s with
          unchanged := s.unchanged + 1
          updatedTracking := s.updatedTracking.write a.id
            { existing with lastSeen := now } }

/-- Immutable `TrackingService.detectChanges`: the spec's `reconcile`.
`updatedTracking` starts as the spread copy `{ ...tracking }`, i.e. the
same mapping. -/
def detectChangesImm (articles : List Article) (tracking : TrackingData)
    (now : String) : ImmResult :=
  articles.foldl (detectChangesImmStep now)
    { newArticles := [], updated := [], unchanged := 0,
      tracking := tracking, updatedTracking := tracking }

/-! ### Loop invariants for the immutable variant -/

/-- The immutable loop body never writes the caller's store binding. -/
theorem detectChangesImmStep_tracking (now : String) (s : ImmResult) (a : Article) :
    (detectChangesImmStep now s a).tracking = s.tracking := by
  unfold detectChangesImmStep
  cases s.tracking a.id <;> simp only
  split <;> rfl

/-- The caller's store binding survives the whole fold unchanged. -/
theorem detectChangesImm_fold_tracking (now : String) (l : List Article) (s : ImmResult) :
    (l.foldl (detectChangesImmStep now) s).tracking = s.tracking := by
  induction l generalizing s with
  | nil => rfl
  | cons a l ih => rw [List.foldl_cons, ih, detectChangesImmStep_tracking]

/-- Keys present in `updatedTracking` are never removed by the loop. -/
theorem detectChangesImm_fold_isSome (now : String) (l : List Article) (s : ImmResult)
    (k : String) (h : (s.updatedTracking k).isSome) :
    ((l.foldl (detectChangesImmStep now) s).updatedTracking k).isSome := by
  induction l generalizing s with
  | nil => exact h
  | cons a l ih =>
    rw [List.foldl_cons]
    apply ih
    unfold detectChangesImmStep
    cases s.tracking a.id <;> simp only
    case none =>
      unfold TrackingData.write
      by_cases hk : k = a.id <;> simp [hk, h]
    case some e =>
      split <;> unfold TrackingData.write <;> by_cases hk : k = a.id <;> simp [hk, h]

/-- A key not named by any processed article keeps its `updatedTracking`
value across the fold. -/
theorem detectChangesImm_fold_frame (now : String) (l : List Article) (s : ImmResult)
    (k : String) (h : ∀ a ∈ l, a.id ≠ k) :
    (l.foldl (detectChangesImmStep now) s).updatedTracking k = s.updatedTracking k := by
  induction l generalizing s with
  | nil => rfl
  | cons a l ih =>
    rw [List.foldl_cons, ih _ (fun b hb => h b (List.mem_cons_of_mem _ hb))]
    have ha : a.id ≠ k := h a (List.mem_cons_self a l)
    have hk : ¬ (k = a.id) := fun hk => ha hk.symm
    unfold detectChangesImmStep
    cases s.tracking a.id <;> simp only
    case none =>
      simp [TrackingData.write, hk]
    case some e =>
      split <;> simp [TrackingData.write, hk]

/-- Classification of the immutable variant is pointwise in the prior store:
the emitted `newArticles` list is exactly the input filtered to the articles
whose id misses the prior store. -/
theorem detectChangesImm_fold_new (now : String) (l : List Article) (s : ImmResult) :
    (l.foldl (detectChangesImmStep now) s).newArticles =
      s.newArticles ++ l.filter (fun a => (s.tracking a.id).isNone) := by
  induction l generalizing s with
  | nil => simp
  | cons a l ih =>
    rw [List.foldl_cons, ih]
    have ht := detectChangesImmStep_tracking now s a
    unfold detectChangesImmStep at *
    cases h : s.tracking a.id <;> simp only [h] at ht ⊢
    case none => simp [List.filter_cons, h, ht]
    case some e =>
      split <;> simp_all [List.filter_cons, h]

/-- The `updated` output of the immutable variant is the input filtered to
the articles whose prior entry exists with a different link. -/
theorem detectChangesImm_fold_updated (now : String) (l : List Article) (s : ImmResult) :
    (l.foldl (detectChangesImmStep now) s).updated =
      s.updated ++ l.filter (fun a =>
        match s.tracking a.id with
        | some e => e.link ≠ a.link
        | none => false) := by
  induction l generalizing s with
  | nil => simp
  | cons a l ih =>
    rw [List.foldl_cons, ih]
    have ht := detectChangesImmStep_tracking now s a
    unfold detectChangesImmStep at *
    cases h : s.tracking a.id <;> simp only [h] at ht ⊢
    case none => simp [List.filter_cons, h, ht]
    case some e =>
      by_cases hl : e.link = a.link <;> simp_all [List.filter_cons, h]

/-- The `unchanged` counter of the immutable variant counts the articles
whose prior entry exists with the same link. -/
theorem detectChangesImm_fold_unchanged (now : String) (l : List Article) (s : ImmResult) :
    (l.foldl (detectChangesImmStep now) s).unchanged =
      s.unchanged + l.countP (fun a =>
        match s.tracking a.id with
        | some e => e.link = a.link
        | none => false) := by
  induction l generalizing s with
  | nil => simp
  | cons a l ih =>
    rw [List.foldl_cons, ih]
    have ht := detectChangesImmStep_tracking now s a
    unfold detectChangesImmStep at *
    cases h : s.tracking a.id <;> simp only [h] at ht ⊢
    case none => simp [List.countP_cons, h, ht]
    case some e =>
      by_cases hl : e.link = a.link <;> simp_all [List.countP_cons, h] <;> omega

/-- Every article of the run leaves an entry stamped with this call's `now`. -/
theorem detectChangesImm_fold_touched (now : String) (l : List Article) (s : ImmResult)
    (a : Article) (ha : a ∈ l ∨ ∃ e, s.updatedTracking a.id = some e ∧ e.lastSeen = now) :
    ∃ e, ((l.foldl (detectChangesImmStep now) s).updatedTracking a.id) = some e ∧
      e.lastSeen = now := by
  induction l generalizing s with
  | nil =>
    rcases ha with h | h
    · cases h
    · exact h
  | cons b l ih =>
    rw [List.foldl_cons]
    apply ih
    rcases ha with h | h
    · rcases List.mem_cons.mp h with rfl | h2
      · right
        unfold detectChangesImmStep
        cases s.tracking a.id <;> simp only
        case none =>
          refine ⟨TrackingEntryFactory.create a.id a.link now, ?_, rfl⟩
          simp [TrackingData.write]
        case some e =>
          split
          · refine ⟨TrackingEntryFactory.create a.id a.link now, ?_, rfl⟩
            simp [TrackingData.write]
          · refine ⟨{ e with lastSeen := now }, ?_, rfl⟩
            simp [TrackingData.write]
      · exact Or.inl h2
    · right
      obtain ⟨e, he, hn⟩ := h
      unfold detectChangesImmStep
      cases s.tracking b.id <;> simp only
      case none =>
        unfold TrackingData.write
        by_cases hk : a.id = b.id
        · exact ⟨TrackingEntryFactory.create b.id b.link now, by simp [hk], rfl⟩
        · exact ⟨e, by simp [hk, he], hn⟩
      case some e2 =>
        split <;> unfold TrackingData.write <;> by_cases hk : a.id = b.id
        · exact ⟨TrackingEntryFactory.create b.id b.link now, by simp [hk], rfl⟩
        · exact ⟨e, by simp [hk, he], hn⟩
        · exact ⟨{ e2 with lastSeen := now }, by simp [hk], rfl⟩
        · exact ⟨e, by simp [hk, he], hn⟩

/-! ### Claim theorems for the tracking reconciler -/

/-- Concrete fixtures for witnesses. -/
def artA : Article :=
  { id := "h1", title := "Erste Meldung", link := "https://www.karlsruhe.de/a",
    description := "d1", content := "c1" }

/-- Second occurrence of the same article (same id, same link). -/
def artB : Article :=
  { id := "h1", title := "Erste Meldung", link := "https://www.karlsruhe.de/a",
    description := "d1b", content := "c1b" }

/-- A prior store holding one unrelated entry under key h0. -/
def trOld : TrackingData := fun k =>
  if k = "h0" then
    some { contentHash := "h0", lastSeen := "2024-01-01T00:00:00.000Z",
           link := "https://www.karlsruhe.de/old" }
  else none

/-- An empty prior store. -/
def trEmpty : TrackingData := fun _ => none

/-- C1: the immutable `detectChanges` (the spec's `reconcile`) leaves the
caller-supplied prior store unchanged, produces a store whose key set is a
superset of the prior store's keys, and retains every entry whose hash is
not observed among this run's articles exactly as it was (no pruning). -/
theorem c1_reconcile_frame (articles : List Article) (tracking : TrackingData) (now : String) :
    (detectChangesImm articles tracking now).tracking = tracking ∧
    (∀ k, (tracking k).isSome →
      ((detectChangesImm articles tracking now).updatedTracking k).isSome) ∧
    (∀ k, (∀ a ∈ articles, a.id ≠ k) →
      (detectChangesImm articles tracking now).updatedTracking k = tracking k) := by
  refine ⟨?_, ?_, ?_⟩
  · exact detectChangesImm_fold_tracking now articles _
  · intro k hk
    exact detectChangesImm_fold_isSome now articles _ k hk
  · intro k hk
    exact detectChangesImm_fold_frame now articles _ k hk

/-- C1 witness: on a concrete run the unrelated prior entry under h0 is
retained unchanged, and the caller's store is intact. -/
theorem c1_reconcile_frame_witness :
    (detectChangesImm [artA] trOld "2025-12-09T00:00:00.000Z").updatedTracking "h0" =
      trOld "h0" ∧
    (detectChangesImm [artA] trOld "2025-12-09T00:00:00.000Z").tracking = trOld :=
  ⟨(c1_reconcile_frame [artA] trOld "2025-12-09T00:00:00.000Z").2.2 "h0" (by decide),
   (c1_reconcile_frame [artA] trOld "2025-12-09T00:00:00.000Z").1⟩

/-- C2: per-article classification of the immutable `detectChanges` against
the prior store: ids missing from the prior store are emitted as New, ids
whose prior entry carries a different link are emitted as Updated, ids whose
prior entry carries the same link are only counted as unchanged; the loop
body writes a fresh `{contentHash = id, lastSeen = now, link}` entry in the
New and Updated cases and refreshes only `lastSeen` in the Unchanged case;
and the single `now` of the call stamps every touched entry. -/
theorem c2_reconcile_classification (articles : List Article) (tracking : TrackingData)
    (now : String) :
    (detectChangesImm articles tracking now).newArticles =
      articles.filter (fun a => (tracking a.id).isNone) ∧
    (detectChangesImm articles tracking now).updated =
      articles.filter (fun a =>
        match tracking a.id with
        | some e => e.link ≠ a.link
        | none => false) ∧
    (detectChangesImm articles tracking now).unchanged =
      articles.countP (fun a =>
        match tracking a.id with
        | some e => e.link = a.link
        | none => false) ∧
    (∀ s : ImmResult, ∀ a : Article, s.tracking a.id = none →
      (detectChangesImmStep now s a).updatedTracking a.id =
        some { contentHash := a.id, lastSeen := now, link := a.link }) ∧
    (∀ s : ImmResult, ∀ a : Article, ∀ e, s.tracking a.id = some e → e.link ≠ a.link →
      (detectChangesImmStep now s a).updatedTracking a.id =
        some { contentHash := a.id, lastSeen := now, link := a.link }) ∧
    (∀ s : ImmResult, ∀ a : Article, ∀ e, s.tracking a.id = some e → e.link = a.link →
      (detectChangesImmStep now s a).updatedTracking a.id =
        some { e with lastSeen := now }) ∧
    (∀ a ∈ articles, ∃ en,
      (detectChangesImm articles tracking now).updatedTracking a.id = some en ∧
      en.lastSeen = now) := by
  refine ⟨?_, ?_, ?_, ?_, ?_, ?_, ?_⟩
  · simpa using detectChangesImm_fold_new now articles
      { newArticles := [], updated := [], unchanged := 0,
        tracking := tracking, updatedTracking := tracking }
  · simpa using detectChangesImm_fold_updated now articles
      { newArticles := [], updated := [], unchanged := 0,
        tracking := tracking, updatedTracking := tracking }
  · simpa using detectChangesImm_fold_unchanged now articles
      { newArticles := [], updated := [], unchanged := 0,
        tracking := tracking, updatedTracking := tracking }
  · intro s a h
    unfold detectChangesImmStep
    simp [h, TrackingData.write, TrackingEntryFactory.create]
  · intro s a e h hl
    unfold detectChangesImmStep
    simp [h, hl, TrackingData.write, TrackingEntryFactory.create]
  · intro s a e h hl
    unfold detectChangesImmStep
    simp [h, hl, TrackingData.write]
  · intro a ha
    exact detectChangesImm_fold_touched now articles _ a (Or.inl ha)

/-- C2 witness: a concrete New article receives a fresh entry stamped with
the call's `now`, and the classification filters evaluate as stated. -/
theorem c2_reconcile_classification_witness :
    (detectChangesImm [artA] trOld "2025-12-09T00:00:00.000Z").newArticles =
      [artA].filter (fun a => (trOld a.id).isNone) ∧
    (∃ en, (detectChangesImm [artA] trOld "2025-12-09T00:00:00.000Z").updatedTracking
        artA.id = some en ∧ en.lastSeen = "2025-12-09T00:00:00.000Z") :=
  ⟨(c2_reconcile_classification [artA] trOld "2025-12-09T00:00:00.000Z").1,
   (c2_reconcile_classification [artA] trOld
      "2025-12-09T00:00:00.000Z").2.2.2.2.2.2 artA (by decide)⟩

/-- C10: in the in-place `detectChanges` of `tracking.service.ts`, a
duplicated article (same id, same link, id absent from the prior store) is
emitted as New only once: the second occurrence observes the entry written
for the first within the same call and is counted as unchanged. -/
theorem c10_duplicate_second_unchanged (a b : Article) (tracking : TrackingData)
    (now : String) (hid : b.id = a.id) (hlink : b.link = a.link)
    (h : tracking a.id = none) :
    (detectChangesMut [a, b] tracking now).newArticles = [a] ∧
    (detectChangesMut [a, b] tracking now).updated = [] ∧
    (detectChangesMut [a, b] tracking now).unchanged = 1 := by
  unfold detectChangesMut
  simp only [List.foldl_cons, List.foldl_nil]
  unfold detectChangesMutStep
  simp [h, TrackingData.write, hid, hlink]

/-- C10 witness: concrete duplicated articles against the empty store. -/
theorem c10_duplicate_second_unchanged_witness :
    (detectChangesMut [artA, artB] trEmpty "2025-12-09T00:00:00.000Z").newArticles = [artA] ∧
    (detectChangesMut [artA, artB] trEmpty "2025-12-09T00:00:00.000Z").updated = [] ∧
    (detectChangesMut [artA, artB] trEmpty "2025-12-09T00:00:00.000Z").unchanged = 1 :=
  c10_duplicate_second_unchanged artA artB trEmpty "2025-12-09T00:00:00.000Z"
    (by decide) (by decide) (by decide)

/-! ## Identity generator (`src/utils/id-generator.utils.ts`)

`IdGenerator.generate(content, date)` computes
`md5hex(date.toISOString().split('T')[0] + "|" + content)` over the UTF-8
bytes of the hash input.  `Date` values are modelled as epoch milliseconds
(`Int`); `createHash('md5')` is realised by a concrete MD5 implementation
over `Nat` bytes. -/

/-- UTF-8 encoding of one character (code points below 0x80, 0x800,
0x10000, and the 4-byte range). -/
def utf8BytesOfChar (c : Char) : List Nat :=
  let n := c.toNat
  if n < 128 then [n]
  else if n < 2048 then
    [192 + n / 64, 128 + n % 64]
  else if n < 65536 then
    [224 + n / 4096, 128 + (n / 64) % 64, 128 + n % 64]
  else
    [240 + n / 262144, 128 + (n / 4096) % 64, 128 + (n / 64) % 64, 128 + n % 64]

/-- UTF-8 encoding of a string as a byte list. -/
def utf8Bytes (s : String) : List Nat :=
  (s.data.map utf8BytesOfChar).flatten

/-- Wrap to 32 bits. -/
def w32 (n : Nat) : Nat := n % 4294967296

/-- 32-bit modular addition. -/
def wadd (a b : Nat) : Nat := (a + b) % 4294967296

/-- 32-bit complement. -/
def wnot (a : Nat) : Nat := 4294967295 ^^^ (w32 a)

/-- 32-bit left rotation. -/
def wrotl (x s : Nat) : Nat :=
  ((w32 x) * 2 ^ s + (w32 x) / 2 ^ (32 - s)) % 4294967296

/-- MD5 sine-derived round constants. -/
def md5K : List Nat :=
  [0xd76aa478, 0xe8c7b756, 0x242070db, 0xc1bdceee,
   0xf57c0faf, 0x4787c62a, 0xa8304613, 0xfd469501,
   0x698098d8, 0x8b44f7af, 0xffff5bb1, 0x895cd7be,
   0x6b901122, 0xfd987193, 0xa679438e, 0x49b40821,
   0xf61e2562, 0xc040b340, 0x265e5a51, 0xe9b6c7aa,
   0xd62f105d, 0x02441453, 0xd8a1e681, 0xe7d3fbc8,
   0x21e1cde6, 0xc33707d6, 0xf4d50d87, 0x455a14ed,
   0xa9e3e905, 0xfcefa3f8, 0x676f02d9, 0x8d2a4c8a,
   0xfffa3942, 0x8771f681, 0x6d9d6122, 0xfde5380c,
   0xa4beea44, 0x4bdecfa9, 0xf6bb4b60, 0xbebfbc70,
   0x289b7ec6, 0xeaa127fa, 0xd4ef3085, 0x04881d05,
   0xd9d4d039, 0xe6db99e5, 0x1fa27cf8, 0xc4ac5665,
   0xf4292244, 0x432aff97, 0xab9423a7, 0xfc93a039,
   0x655b59c3, 0x8f0ccc92, 0xffeff47d, 0x85845dd1,
   0x6fa87e4f, 0xfe2ce6e0, 0xa3014314, 0x4e0811a1,
   0xf7537e82, 0xbd3af235, 0x2ad7d2bb, 0xeb86d391]

/-- MD5 per-round left-rotation amounts. -/
def md5S : List Nat :=
  [7, 12, 17, 22, 7, 12, 17, 22, 7, 12, 17, 22, 7, 12, 17, 22,
   5, 9, 14, 20, 5, 9, 14, 20, 5, 9, 14, 20, 5, 9, 14, 20,
   4, 11, 16, 23, 4, 11, 16, 23, 4, 11, 16, 23, 4, 11, 16, 23,
   6, 10, 15, 21, 6, 10, 15, 21, 6, 10, 15, 21, 6, 10, 15, 21]

/-- MD5 working state. -/
structure Md5State where
  a : Nat
  b : Nat
  c : Nat
  d : Nat

/-- One MD5 round on one message schedule `m` (the 16 words of the chunk). -/
def md5Round (m : List Nat) (st : Md5State) (i : Nat) : Md5State :=
  let f :=
    if i < 16 then (st.b &&& st.c) ||| (wnot st.b &&& st.d)
    else if i < 32 then (st.d &&& st.b) ||| (wnot st.d &&& st.c)
    else if i < 48 then st.b ^^^ st.c ^^^ st.d
    else st.c ^^^ (st.b ||| wnot st.d)
  let g :=
    if i < 16 then i
    else if i < 32 then (5 * i + 1) % 16
    else if i < 48 then (3 * i + 5) % 16
    else (7 * i) % 16
  let tmp := wadd (wadd (wadd st.a f) (md5K.getD i 0)) (m.getD g 0)
  { a := st.d, b := wadd st.b (wrotl tmp (md5S.getD i 0)), c := st.b, d := st.c }

/-- Split the bytes of one 64-byte chunk into 16 little-endian 32-bit words. -/
def md5Words : List Nat → List Nat
  | b0 :: b1 :: b2 :: b3 :: rest =>
      (b0 + 256 * b1 + 65536 * b2 + 16777216 * b3) :: md5Words rest
  | _ => []

/-- Process one 64-byte chunk. -/
def md5Chunk (st : Md5State) (chunk : List Nat) : Md5State :=
  let m := md5Words chunk
  let r := (List.range 64).foldl (md5Round m) st
  { a := wadd st.a r.a, b := wadd st.b r.b, c := wadd st.c r.c, d := wadd st.d r.d }

/-- Split a byte list into chunks of 64 (fuel-driven structural recursion;
the fuel is the list length, which strictly dominates the number of
chunks). -/
def chunks64Aux : Nat → List Nat → List (List Nat)
  | 0, _ => []
  | _, [] => []
  | fuel + 1, l => l.take 64 :: chunks64Aux fuel (l.drop 64)

/-- Split a byte list into chunks of 64. -/
def chunks64 (l : List Nat) : List (List Nat) := chunks64Aux l.length l

/-- MD5 padding: a 0x80 byte, zeros to 56 mod 64, then the bit length as
eight little-endian bytes. -/
def md5Pad (msg : List Nat) : List Nat :=
  let len := msg.length
  let z := (64 + 56 - ((len + 1) % 64)) % 64
  let bitLen := 8 * len
  msg ++ [128] ++ List.replicate z 0 ++
    (List.range 8).map (fun i => (bitLen / 2 ^ (8 * i)) % 256)

/-- Serialize one 32-bit word into four little-endian bytes. -/
def wordBytesLE (w : Nat) : List Nat :=
  [w % 256, (w / 256) % 256, (w / 65536) % 256, (w / 16777216) % 256]

/-- MD5 digest of a byte list: sixteen bytes. -/
def md5Digest (msg : List Nat) : List Nat :=
  let st0 : Md5State :=
    { a := 0x67452301, b := 0xefcdab89, c := 0x98badcfe, d := 0x10325476 }
  let st := (chunks64 (md5Pad msg)).foldl md5Chunk st0
  wordBytesLE st.a ++ wordBytesLE st.b ++ wordBytesLE st.c ++ wordBytesLE st.d

/-- One lowercase hex digit: code point 48 + n for 0-9, 87 + n for a-f
(only ever applied to values below 16). -/
def hexDigit (n : Nat) : Char :=
  if n < 10 then Char.ofNat (48 + n) else Char.ofNat (87 + n)

/-- Two lowercase hex digits of one byte. -/
def byteHex (b : Nat) : List Char := [hexDigit (b / 16 % 16), hexDigit (b % 16)]

/-- Lowercase hexadecimal MD5 digest of a string (the node
`createHash('md5').update(s).digest('hex')` result). -/
def md5Hex (s : String) : String :=
  String.mk ((md5Digest (utf8Bytes s)).map byteHex).flatten

set_option maxRecDepth 100000 in
/-- Development check of the MD5 core against the RFC 1321 test suite. -/
theorem md5Hex_empty_vector : md5Hex "" = "d41d8cd98f00b204e9800998ecf8427e" := by decide

set_option maxRecDepth 100000 in
/-- Development check of the MD5 core against the RFC 1321 test suite. -/
theorem md5Hex_abc_vector : md5Hex "abc" = "900150983cd24fb0d6963f7d28e17f72" := by decide

/-! ## Calendar-day formatting (`Date.prototype.toISOString().split('T')[0]`)

`toISOString` formats the UTC calendar day of the epoch-millisecond value;
`split('T')[0]` keeps the `YYYY-MM-DD` part.  The UTC day number is the
floor of ms / 86400000, converted to a civil date by the standard
days-from-civil inverse. -/

/-- Civil (year, month 1-12, day 1-31) from a day number counted from
1970-01-01, proleptic Gregorian, as used by `toISOString`. -/
def civilFromDays (z0 : Int) : Int × Int × Int :=
  let z := z0 + 719468
  let era := Int.fdiv z 146097
  let doe := z - era * 146097
  let yoe := (doe - doe / 1460 + doe / 36524 - doe / 146096) / 365
  let y := yoe + era * 400
  let doy := doe - (365 * yoe + yoe / 4 - yoe / 100)
  let mp := (5 * doy + 2) / 153
  let d := doy - (153 * mp + 2) / 5 + 1
  let m := if mp < 10 then mp + 3 else mp - 9
  (if m ≤ 2 then y + 1 else y, m, d)

/-- Left-pad a natural number with zeros to the given width. -/
def padNat (w : Nat) (n : Nat) : String :=
  let s := toString n
  String.mk (List.replicate (w - s.length) '0') ++ s

/-- Year field of `toISOString` (expanded ±YYYYYY form outside 0..9999). -/
def isoYearStr (y : Int) : String :=
  if 0 ≤ y ∧ y ≤ 9999 then padNat 4 y.toNat
  else (if y < 0 then "-" else "+") ++ padNat 6 y.natAbs

/-- The `YYYY-MM-DD` prefix of `toISOString` of an epoch-millisecond value. -/
def toISODateString (ms : Int) : String :=
  let c := civilFromDays (Int.fdiv ms 86400000)
  isoYearStr c.1 ++ "-" ++ padNat 2 c.2.1.toNat ++ "-" ++ padNat 2 c.2.2.toNat

/-- Development check of the civil-date conversion. -/
theorem toISODateString_vector1 : toISODateString 1765238400000 = "2025-12-09" := by decide

/-- Development check of the civil-date conversion (mid-day timestamp). -/
theorem toISODateString_vector2 : toISODateString 1705316400000 = "2024-01-15" := by decide

/-- IdGenerator.generate from `src/utils/id-generator.utils.ts`:
`md5hex(dateStr + "|" + content)` with `dateStr` the calendar-day prefix of
`toISOString`. -/
def IdGenerator.generate (content : String) (dateMs : Int) : String :=
  md5Hex (toISODateString dateMs ++ "|" ++ content)

set_option maxRecDepth 100000 in
/-- Development check matching the spec's example: the id of the test
article content on 2025-12-09 is a 32-char lowercase hex string. -/
theorem generate_example_vector :
    IdGenerator.generate "Test article content about Karlsruhe" 1765238400000 =
      "cd9277576be6a93794372928f4193e17" := by decide

/-! ### Hex-output lemmas for the identity generator -/

/-- Hex digits of values below 16 lie in the character class `[a-f0-9]`. -/
theorem hexDigit_class : ∀ m, m < 16 →
    (('0' ≤ hexDigit m ∧ hexDigit m ≤ '9') ∨
      ('a' ≤ hexDigit m ∧ hexDigit m ≤ 'f')) := by decide

/-- Flattening the two-digit byte renderings doubles the length. -/
theorem byteHex_flatten_length (l : List Nat) :
    ((l.map byteHex).flatten).length = 2 * l.length := by
  induction l with
  | nil => rfl
  | cons b l ih =>
    simp [byteHex, ih]
    omega

/-- The MD5 digest always has sixteen bytes. -/
theorem md5Digest_length (msg : List Nat) : (md5Digest msg).length = 16 := by
  simp [md5Digest, wordBytesLE]

/-- Every character of an `md5Hex` output is a lowercase hex digit. -/
theorem md5Hex_char_class (s : String) (ch : Char) (h : ch ∈ (md5Hex s).data) :
    ('0' ≤ ch ∧ ch ≤ '9') ∨ ('a' ≤ ch ∧ ch ≤ 'f') := by
  unfold md5Hex at h
  simp only [String.data] at h
  obtain ⟨l, hl, hc⟩ := List.mem_flatten.mp h
  obtain ⟨b, _, rfl⟩ := List.mem_map.mp hl
  unfold byteHex at hc
  simp only [List.mem_cons, List.not_mem_nil, or_false] at hc
  rcases hc with rfl | rfl
  · exact hexDigit_class _ (Nat.mod_lt _ (by norm_num))
  · exact hexDigit_class _ (Nat.mod_lt _ (by norm_num))

/-- Claim C4 helper: `md5Hex` output has length 32. -/
theorem md5Hex_length (s : String) : (md5Hex s).length = 32 := by
  unfold md5Hex
  show (String.mk _).length = 32
  rw [String.length]
  rw [byteHex_flatten_length, md5Digest_length]

/-- C4: the id of (content, date) is the lowercase hexadecimal MD5 digest of
the UTF-8 string `"<YYYY-MM-DD>|<content>"`, deterministic, and always
matching `[a-f0-9]` with length 32 (including empty content). -/
theorem c4_generate_md5_shape (c : String) (dateMs : Int) :
    IdGenerator.generate c dateMs = md5Hex (toISODateString dateMs ++ "|" ++ c) ∧
    (IdGenerator.generate c dateMs).length = 32 ∧
    (∀ ch ∈ (IdGenerator.generate c dateMs).data,
      ('0' ≤ ch ∧ ch ≤ '9') ∨ ('a' ≤ ch ∧ ch ≤ 'f')) ∧
    IdGenerator.generate c dateMs = IdGenerator.generate c dateMs := by
  refine ⟨rfl, md5Hex_length _, ?_, rfl⟩
  intro ch h
  exact md5Hex_char_class _ ch h

/-- C4 witness: the regex shape at a concrete (content, date), empty content
included. -/
theorem c4_generate_md5_shape_witness :
    (IdGenerator.generate "" 1765238400000).length = 32 ∧
    (∀ ch ∈ (IdGenerator.generate "" 1765238400000).data,
      ('0' ≤ ch ∧ ch ≤ '9') ∨ ('a' ≤ ch ∧ ch ≤ 'f')) :=
  ⟨(c4_generate_md5_shape "" 1765238400000).2.1,
   (c4_generate_md5_shape "" 1765238400000).2.2.1⟩

/-- C5: the id depends only on the UTC calendar day of the date: two
epoch-millisecond values with the same UTC day number (same floor of
ms / 86400000, hence any time-of-day within that day) hash identically. -/
theorem c5_generate_day_invariant (c : String) (t1 t2 : Int)
    (h : Int.fdiv t1 86400000 = Int.fdiv t2 86400000) :
    IdGenerator.generate c t1 = IdGenerator.generate c t2 := by
  unfold IdGenerator.generate toISODateString
  rw [h]

/-- C5 witness: 01:00 UTC and 23:00 UTC of 2025-12-09 give the same id. -/
theorem c5_generate_day_invariant_witness :
    Int.fdiv 1765242000000 86400000 = Int.fdiv 1765321200000 86400000 ∧
    IdGenerator.generate "Test article content about Karlsruhe" 1765242000000 =
      IdGenerator.generate "Test article content about Karlsruhe" 1765321200000 :=
  ⟨by decide,
   c5_generate_day_invariant "Test article content about Karlsruhe"
     1765242000000 1765321200000 (by decide)⟩

/-! ## German date parser (`GermanDateParser`, `date.utils.ts`, `GERMAN_MONTHS`)

`Date` values produced by the parser are either reference-derived epoch
milliseconds (relative forms, fallback) or a local `new Date(y, m, d)`
civil construction (absolute forms); both are kept symbolic in `DateV`.
The regular expressions are realised as leftmost-match scanners with the
same backtracking behaviour on the quantifiers involved. -/

/-- Date values as the parser constructs them. -/
inductive DateV where
  | epochMs (ms : Int)
  | civil (year : Int) (monthIndex : Int) (day : Int)
  deriving DecidableEq, Repr

/-- JS whitespace (the characters of `\s` that can occur in scraped text). -/
def isJsWs (c : Char) : Bool :=
  c = ' ' ∨ c = '\t' ∨ c = '\n' ∨ c = '\r' ∨ c = '\x0b' ∨ c = '\x0c' ∨
  c = ' ' ∨ c = '﻿'

/-- JS `String.prototype.trim` on the character list. -/
def jsTrimChars (l : List Char) : List Char :=
  ((l.dropWhile isJsWs).reverse.dropWhile isJsWs).reverse

/-- JS `String.prototype.trim`. -/
def jsTrim (s : String) : String := String.mk (jsTrimChars s.data)

/-- Lower-case an ASCII letter (the case-folding the `/i` patterns need on
their ASCII literals). -/
def lowerAscii (c : Char) : Char :=
  if 'A' ≤ c ∧ c ≤ 'Z' then Char.ofNat (c.toNat + 32) else c

/-- Case-insensitive literal match at the head (`lit` given lowercase):
returns the remaining suffix on success. -/
def matchLitCI (lit : List Char) (l : List Char) : Option (List Char) :=
  match lit, l with
  | [], rest => some rest
  | _ :: _, [] => none
  | c :: lit2, x :: l2 => if lowerAscii x = c then matchLitCI lit2 l2 else none

/-- Skip the `\s+` quantifier: at least one whitespace character. -/
def skipWs1 (l : List Char) : Option (List Char) :=
  match l.span isJsWs with
  | ([], _) => none
  | (_ :: _, rest) => some rest

/-- ASCII decimal digit. -/
def isDigitChar (c : Char) : Bool := '0' ≤ c ∧ c ≤ '9'

/-- Numeric value of a digit string (`Number.parseInt(_, 10)`). -/
def natOfDigits (l : List Char) : Nat :=
  l.foldl (fun acc c => acc * 10 + (c.toNat - 48)) 0

/-- Take exactly `n` digit characters. -/
def takeExactDigits : Nat → List Char → Option (List Char × List Char)
  | 0, l => some ([], l)
  | n + 1, [] => (fun _ => none) n
  | n + 1, c :: l =>
      if isDigitChar c then
        (takeExactDigits n l).map (fun p => (c :: p.1, p.2))
      else none

/-- Match `vor\s+(\d+)\s+<unit>` at the head of the list (units are the
ASCII literals stunde / minute / tag; the optional `(n)?` of the source
patterns never constrains a match). -/
def tryRelAt (unit : List Char) (l : List Char) : Option Nat :=
  match matchLitCI ['v', 'o', 'r'] l with
  | none => none
  | some r1 =>
    match skipWs1 r1 with
    | none => none
    | some r2 =>
      match r2.span isDigitChar with
      | ([], _) => none
      | (ds, r3) =>
        match skipWs1 r3 with
        | none => none
        | some r4 =>
          match matchLitCI unit r4 with
          | none => none
          | some _ => some (natOfDigits ds)

/-- Leftmost match of the relative pattern over the text. -/
def scanRel (unit : List Char) : List Char → Option Nat
  | [] => none
  | l@(_ :: tl) =>
    match tryRelAt unit l with
    | some n => some n
    | none => scanRel unit tl

/-- Case-insensitive substring test (`/gestern/i.test(text)` style). -/
def containsCI (pat : List Char) : List Char → Bool
  | [] => (matchLitCI pat []).isSome
  | l@(_ :: tl) => (matchLitCI pat l).isSome || containsCI pat tl

/-- `calculateMilliseconds` from `date.utils.ts`. -/
def calculateMilliseconds (hours minutes days : Nat) : Nat :=
  hours * 60 * 60 * 1000 + minutes * 60 * 1000 +
    days * 24 * 60 * 60 * 1000

/-- `parseRelativeDate`: the three `vor N ...` patterns in order, then
`gestern`, then `heute`; `subtractMilliseconds` appears as subtraction on
the reference epoch value. -/
def parseRelativeDate (text : List Char) (reference : Int) : Option DateV :=
  match scanRel ['s', 't', 'u', 'n', 'd', 'e'] text with
  | some n => some (DateV.epochMs (reference - calculateMilliseconds n 0 0))
  | none =>
    match scanRel ['m', 'i', 'n', 'u', 't', 'e'] text with
    | some n => some (DateV.epochMs (reference - calculateMilliseconds 0 n 0))
    | none =>
      match scanRel ['t', 'a', 'g'] text with
      | some n => some (DateV.epochMs (reference - calculateMilliseconds 0 0 n))
      | none =>
        if containsCI ['g', 'e', 's', 't', 'e', 'r', 'n'] text then
          some (DateV.epochMs (reference - calculateMilliseconds 0 0 1))
        else if containsCI ['h', 'e', 'u', 't', 'e'] text then
          some (DateV.epochMs reference)
        else none

/-- Character class `[a-zäöüß]` under the `/i` flag (ASCII letters both
cases; ä ö ü fold with their uppercase forms; ß folds with nothing). -/
def isMonthNameChar (c : Char) : Bool :=
  ('a' ≤ c ∧ c ≤ 'z') ∨ ('A' ≤ c ∧ c ≤ 'Z') ∨
  c = 'ä' ∨ c = 'Ä' ∨ c = 'ö' ∨ c = 'Ö' ∨ c = 'ü' ∨ c = 'Ü' ∨ c = 'ß'

/-- GERMAN_MONTHS from `src/config/constants.ts`.  The March key appears in
the source file with the literal bytes 4D C3 83 C2 A4 72 7A, i.e. the
five-character string M, U+00C3, U+00A4, r, z (a double-encoded umlaut),
which is reproduced here exactly. -/
def GERMAN_MONTHS : List (String × Nat) :=
  [("Januar", 0), ("Februar", 1), ("MÃ¤rz", 2), ("April", 3),
   ("Mai", 4), ("Juni", 5), ("Juli", 6), ("August", 7),
   ("September", 8), ("Oktober", 9), ("November", 10), ("Dezember", 11)]

/-- Property access `GERMAN_MONTHS[monthName]`: exact, case-sensitive key
lookup. -/
def germanMonthLookup (name : List Char) : Option Nat :=
  (GERMAN_MONTHS.find? (fun p => p.1.data = name)).map (fun p => p.2)

/-- Match `(\d{1,2})\.\s+([a-zäöüß]+)\s+(\d{4})` at the head of the list
(greedy day: two digits first, then one). -/
def tryMonthAt (l : List Char) : Option (Nat × List Char × Nat) :=
  (tryMonthAtLen 2 l).orElse (fun _ => tryMonthAtLen 1 l)
where
  /-- One backtracking alternative with a fixed day-digit count. -/
  tryMonthAtLen (dl : Nat) (l : List Char) : Option (Nat × List Char × Nat) :=
    match takeExactDigits dl l with
    | none => none
    | some (ds, r1) =>
      match r1 with
      | '.' :: r2 =>
        match skipWs1 r2 with
        | none => none
        | some r3 =>
          match r3.span isMonthNameChar with
          | ([], _) => none
          | (name, r4) =>
            match skipWs1 r4 with
            | none => none
            | some r5 =>
              match takeExactDigits 4 r5 with
              | none => none
              | some (ys, _) => some (natOfDigits ds, name, natOfDigits ys)
      | _ => none

/-- Leftmost match of the month-name pattern. -/
def scanMonth : List Char → Option (Nat × List Char × Nat)
  | [] => none
  | l@(_ :: tl) =>
    match tryMonthAt l with
    | some r => some r
    | none => scanMonth tl

/-- Match `(\d{1,2})\.(\d{1,2})\.(\d{4})` at the head, with the greedy
backtracking order (2,2), (2,1), (1,2), (1,1) on the digit counts. -/
def tryNumericAt (l : List Char) : Option (Nat × Nat × Nat) :=
  ((tryNumericAtLen 2 2 l).orElse (fun _ => tryNumericAtLen 2 1 l)).orElse
    (fun _ => (tryNumericAtLen 1 2 l).orElse (fun _ => tryNumericAtLen 1 1 l))
where
  /-- One backtracking alternative with fixed digit counts. -/
  tryNumericAtLen (dl ml : Nat) (l : List Char) : Option (Nat × Nat × Nat) :=
    match takeExactDigits dl l with
    | none => none
    | some (ds, r1) =>
      match r1 with
      | '.' :: r2 =>
        match takeExactDigits ml r2 with
        | none => none
        | some (ms, r3) =>
          match r3 with
          | '.' :: r4 =>
            match takeExactDigits 4 r4 with
            | none => none
            | some (ys, _) => some (natOfDigits ds, natOfDigits ms, natOfDigits ys)
          | _ => none
      | _ => none

/-- Leftmost match of the numeric pattern. -/
def scanNumeric : List Char → Option (Nat × Nat × Nat)
  | [] => none
  | l@(_ :: tl) =>
    match tryNumericAt l with
    | some r => some r
    | none => scanNumeric tl

/-- Match `(\d{4})-(\d{2})-(\d{2})` at the head. -/
def tryIsoAt (l : List Char) : Option (Nat × Nat × Nat) :=
  match takeExactDigits 4 l with
  | none => none
  | some (ys, r1) =>
    match r1 with
    | '-' :: r2 =>
      match takeExactDigits 2 r2 with
      | none => none
      | some (ms, r3) =>
        match r3 with
        | '-' :: r4 =>
          match takeExactDigits 2 r4 with
          | none => none
          | some (ds, _) => some (natOfDigits ys, natOfDigits ms, natOfDigits ds)
        | _ => none
    | _ => none

/-- Leftmost match of the ISO pattern. -/
def scanIso : List Char → Option (Nat × Nat × Nat)
  | [] => none
  | l@(_ :: tl) =>
    match tryIsoAt l with
    | some r => some r
    | none => scanIso tl

/-- `parseAbsoluteDate`: month-name form (regex match, then the
case-sensitive `GERMAN_MONTHS` lookup, falling through on a miss), then
numeric `DD.MM.YYYY`, then ISO `YYYY-MM-DD`.
`createDateFromNumericParts(day, month, year)` is `new Date(year, month-1,
day)`, kept symbolic as `DateV.civil year (month-1) day`. -/
def parseAbsoluteDate (text : List Char) : Option DateV :=
  let monthStep : Option DateV :=
    match scanMonth text with
    | some (day, name, year) =>
      match germanMonthLookup name with
      | some m => some (DateV.civil (Int.ofNat year) (Int.ofNat m) (Int.ofNat day))
      | none => none
    | none => none
  match monthStep with
  | some d => some d
  | none =>
    match scanNumeric text with
    | some (day, month, year) =>
        some (DateV.civil (Int.ofNat year) (Int.ofNat month - 1) (Int.ofNat day))
    | none =>
      match scanIso text with
      | some (year, month, day) =>
          some (DateV.civil (Int.ofNat year) (Int.ofNat month - 1) (Int.ofNat day))
      | none => none

/-- `GermanDateParser.parse`: trim, try relative, try absolute, else warn
and return the reference `now` captured once at the start of the call.  The
second component collects the `logger.warn` diagnostics of the call. -/
def GermanDateParser.parse (text : String) (nowMs : Int) : DateV × List String :=
  let trimmed := jsTrimChars text.data
  match parseRelativeDate trimmed nowMs with
  | some d => (d, [])
  | none =>
    match parseAbsoluteDate trimmed with
    | some d => (d, [])
    | none => (DateV.epochMs nowMs, ["Could not parse date, using current date"])

/-- Development check: absolute month-name parse of the repo's test input. -/
theorem parse_januar_vector :
    GermanDateParser.parse "15. Januar 2024" 7 = (DateV.civil 2024 0 15, []) := by decide

/-- Development check: numeric form (repo test `09.12.2025`). -/
theorem parse_numeric_vector :
    GermanDateParser.parse "09.12.2025" 7 = (DateV.civil 2025 11 9, []) := by decide

/-- Development check: ISO form. -/
theorem parse_iso_vector :
    GermanDateParser.parse "2024-01-15" 7 = (DateV.civil 2024 0 15, []) := by decide

/-- Development check: relative hours (repo test `vor 2 Stunden`). -/
theorem parse_rel_hours_vector :
    GermanDateParser.parse "vor 2 Stunden" 10000000 =
      (DateV.epochMs (10000000 - 7200000), []) := by decide

/-- C3 (failing evaluation): on the properly encoded input `1. März 2024`
the month-name pattern matches, but the case-sensitive lookup misses the
mojibake `GERMAN_MONTHS` March key, the month step falls through, no other
pattern matches, and `parse` returns the fallback `now` with a warning
instead of March 1, 2024.  Uppercased month names (regex-matched under `/i`)
miss the exact-case table too, as `15. JANUAR 2024` shows. -/
theorem c3_month_name_lookup_bug :
    (GermanDateParser.parse "1. März 2024" 1765238400000).1 =
      DateV.epochMs 1765238400000 ∧
    (GermanDateParser.parse "1. März 2024" 1765238400000).2 ≠ [] ∧
    (GermanDateParser.parse "1. März 2024" 1765238400000).1 ≠ DateV.civil 2024 2 1 ∧
    (scanMonth (jsTrimChars ("1. März 2024").data)).isSome ∧
    germanMonthLookup ['M', 'ä', 'r', 'z'] = none ∧
    (GermanDateParser.parse "15. JANUAR 2024" 1765238400000).1 =
      DateV.epochMs 1765238400000 := by decide

/-- C6: `parse` is total and never throws; a relative match wins over any
absolute pattern present in the same string; when nothing matches, the
result is the single reference `now` captured at the start of the call
together with a diagnostic warning.  The final conjunct exhibits an input
carrying both a relative phrase and an absolute date: the absolute pattern
alone would parse it, yet the relative phrase decides the result. -/
theorem c6_parse_total_precedence_fallback :
    (∀ text : String, ∀ now : Int, ∀ d : DateV,
      parseRelativeDate (jsTrimChars text.data) now = some d →
      GermanDateParser.parse text now = (d, [])) ∧
    (∀ text : String, ∀ now : Int, ∀ d : DateV,
      parseRelativeDate (jsTrimChars text.data) now = none →
      parseAbsoluteDate (jsTrimChars text.data) = some d →
      GermanDateParser.parse text now = (d, [])) ∧
    (∀ text : String, ∀ now : Int,
      parseRelativeDate (jsTrimChars text.data) now = none →
      parseAbsoluteDate (jsTrimChars text.data) = none →
      GermanDateParser.parse text now =
        (DateV.epochMs now, ["Could not parse date, using current date"])) ∧
    (∀ now : Int,
      GermanDateParser.parse "vor 2 Stunden am 15. Januar 2024" now =
        (DateV.epochMs (now - 7200000), []) ∧
      parseAbsoluteDate (jsTrimChars ("vor 2 Stunden am 15. Januar 2024").data) =
        some (DateV.civil 2024 0 15)) := by
  refine ⟨?_, ?_, ?_, ?_⟩
  · intro text now d h
    simp [GermanDateParser.parse, h]
  · intro text now d h1 h2
    simp [GermanDateParser.parse, h1, h2]
  · intro text now h1 h2
    simp [GermanDateParser.parse, h1, h2]
  · intro now
    have hrel :
        scanRel ['s', 't', 'u', 'n', 'd', 'e']
          (jsTrimChars ("vor 2 Stunden am 15. Januar 2024").data) = some 2 := by decide
    constructor
    · simp [GermanDateParser.parse, parseRelativeDate, hrel, calculateMilliseconds]
    · decide

/-- C6 witness: an absolute-only input parses via the absolute branch, an
unparseable input falls back to the same `now` with a warning. -/
theorem c6_parse_total_precedence_fallback_witness :
    GermanDateParser.parse "15. Januar 2024" 42 = (DateV.civil 2024 0 15, []) ∧
    GermanDateParser.parse "kein Datum" 42 =
      (DateV.epochMs 42, ["Could not parse date, using current date"]) :=
  ⟨c6_parse_total_precedence_fallback.2.1 "15. Januar 2024" 42
      (DateV.civil 2024 0 15) (by decide) (by decide),
   c6_parse_total_precedence_fallback.2.2.1 "kein Datum" 42 (by decide) (by decide)⟩

/-! ## Content extractor (`src/services/content-extractor.service.ts`)

HTML strings are modelled by their parse trees (`Html`, a forest of element
and text nodes); the cheerio round-trip `load`/`html()` is the identity on
this representation.  The external Readability library is an input: its
result (or `null`) is passed to `extract` alongside the parsed document.
String-level emptiness/trim checks of the source map to whitespace checks
on the forest (a string is blank under `trim()` iff its parse holds no
element and only whitespace text). -/

/-- HTML node: element with tag, attributes and children, or a text node. -/
inductive HtmlNode where
  | elem (tag : String) (attrs : List (String × String)) (children : List HtmlNode)
  | text (s : String)

/-- An HTML fragment (forest of nodes). -/
abbrev Html := List HtmlNode

/-- `String.prototype.startsWith`, realised on character lists so that it
computes by structural recursion. -/
def jsStartsWith (s pre : String) : Bool := List.isPrefixOf pre.data s.data

/-- STRIP_SELECTORS of the content extractor (all plain tag selectors). -/
def STRIP_SELECTORS : List String :=
  ["script", "style", "nav", "iframe", "noscript", "footer", "header"]

/-- PREFERRED_CONTAINERS of the content extractor. -/
def PREFERRED_CONTAINERS : List String :=
  ["article", "main", ".news", ".content", "body"]

/-- Concatenated text content of a forest (`$.text()`), as characters. -/
def listText : List HtmlNode → List Char
  | [] => []
  | HtmlNode.text s :: rest => s.data ++ listText rest
  | HtmlNode.elem _ _ c :: rest => listText c ++ listText rest

/-- All-whitespace character data (string trims to empty). -/
def isBlankChars (l : List Char) : Bool := l.all isJsWs

/-- Blankness of the serialized fragment under `trim()`: no elements, only
whitespace text. -/
def isBlankHtml : Html → Bool
  | [] => true
  | HtmlNode.text s :: rest => isBlankChars s.data && isBlankHtml rest
  | HtmlNode.elem _ _ _ :: _ => false

/-- `$(sel).remove()` for each of the given tag selectors: drop every
element with one of the tags, everywhere in the forest. -/
def removeElemsList (bad : List String) : List HtmlNode → List HtmlNode
  | [] => []
  | HtmlNode.text s :: rest => HtmlNode.text s :: removeElemsList bad rest
  | HtmlNode.elem t a c :: rest =>
      if bad.contains t then removeElemsList bad rest
      else HtmlNode.elem t a (removeElemsList bad c) :: removeElemsList bad rest

/-- Attribute filter of `sanitizeHtml`: drop every attribute whose name
starts with `on` and every `style` attribute, on every element. -/
def cleanAttrs (a : List (String × String)) : List (String × String) :=
  a.filter (fun p => !(jsStartsWith p.1 "on" || p.1 == "style"))

/-- The `$('*').each` pass of `sanitizeHtml` stripping event-handler and
style attributes. -/
def stripAttrsList : List HtmlNode → List HtmlNode
  | [] => []
  | HtmlNode.text s :: rest => HtmlNode.text s :: stripAttrsList rest
  | HtmlNode.elem t a c :: rest =>
      HtmlNode.elem t (cleanAttrs a) (stripAttrsList c) :: stripAttrsList rest

/-- The `$('p').each` pass of `sanitizeHtml`: remove paragraph elements
whose text content trims to empty. -/
def removeEmptyPs : List HtmlNode → List HtmlNode
  | [] => []
  | HtmlNode.text s :: rest => HtmlNode.text s :: removeEmptyPs rest
  | HtmlNode.elem t a c :: rest =>
      if t == "p" && isBlankChars (listText c) then removeEmptyPs rest
      else HtmlNode.elem t a (removeEmptyPs c) :: removeEmptyPs rest

/-- `ContentExtractorService.sanitizeHtml`: blank guard, strip disallowed
elements, strip `on*`/`style` attributes, drop empty paragraphs. -/
def sanitizeHtml (content : Html) : Html :=
  if isBlankHtml content then []
  else removeEmptyPs (stripAttrsList (removeElemsList STRIP_SELECTORS content))

/-- Word character of the `\w` class. -/
def isWordChar (c : Char) : Bool :=
  ('a' ≤ c ∧ c ≤ 'z') ∨ ('A' ≤ c ∧ c ≤ 'Z') ∨ ('0' ≤ c ∧ c ≤ '9') ∨ c = '_'

/-- Scanner for `/\w{3,}/`: tracks the current word-character run. -/
def hasWordRunAux : Nat → List Char → Bool
  | k, [] => 3 ≤ k
  | k, c :: rest =>
      if 3 ≤ k then true
      else if isWordChar c then hasWordRunAux (k + 1) rest
      else hasWordRunAux 0 rest

/-- `/\w{3,}/.test` on character data. -/
def hasWordRun (l : List Char) : Bool := hasWordRunAux 0 l

/-- `ContentExtractorService.isValidContent`: falsy guard, then the trimmed
plain text needs at least MIN_CONTENT_LENGTH = 20 characters and a run of
three word characters. -/
def isValidContent (content : Html) : Bool :=
  match content with
  | [] => false
  | _ =>
    let t := jsTrimChars (listText content)
    decide (20 ≤ t.length) && hasWordRun t

/-- `replace(/\r\n/g, '\n')`. -/
def replaceCrLf : List Char → List Char
  | [] => []
  | '\r' :: '\n' :: rest => '\n' :: replaceCrLf rest
  | c :: rest => c :: replaceCrLf rest

/-- Split on runs of at least `minRun` newlines (the `split(/\n{2,}/)` and
`split(/\n+/)` of `buildHtmlFromPlainText`); `pending` counts newlines not
yet classified as a separator. -/
def splitNlAux (minRun : Nat) (cur : List Char) (pending : Nat) :
    List Char → List (List Char)
  | [] =>
      if minRun ≤ pending then [cur.reverse, []]
      else [(List.replicate pending '\n' ++ cur).reverse]
  | c :: rest =>
      if c = '\n' then splitNlAux minRun cur (pending + 1) rest
      else if minRun ≤ pending then
        cur.reverse :: splitNlAux minRun [c] 0 rest
      else splitNlAux minRun (c :: (List.replicate pending '\n' ++ cur)) 0 rest

/-- Split a character list on newline runs of at least `minRun`. -/
def splitNl (minRun : Nat) (l : List Char) : List (List Char) :=
  splitNlAux minRun [] 0 l

/-- `replace(/\s+/g, ' ')`: collapse whitespace runs to single spaces. -/
def collapseWsAux (inWs : Bool) : List Char → List Char
  | [] => []
  | c :: rest =>
      if isJsWs c then
        if inWs then collapseWsAux true rest else ' ' :: collapseWsAux true rest
      else c :: collapseWsAux false rest

/-- Collapse whitespace runs to single spaces. -/
def collapseWs (l : List Char) : List Char := collapseWsAux false l

/-- `ContentExtractorService.buildHtmlFromPlainText`: normalize newlines,
split into paragraphs on blank lines (single newlines if that yields at
most one paragraph but newlines are present), collapse whitespace, drop
empties, wrap each paragraph in a `<p>` element. -/
def buildHtmlFromPlainText (textContent : List Char) : Option Html :=
  let normalized := jsTrimChars (replaceCrLf textContent)
  if normalized = [] then none
  else
    let paragraphs0 := (splitNl 2 normalized).map jsTrimChars
    let paragraphs :=
      if paragraphs0.length ≤ 1 ∧ normalized.contains '\n' then
        (splitNl 1 normalized).map jsTrimChars
      else paragraphs0
    let sanitizedParagraphs := (paragraphs.map collapseWs).filter (fun p => p ≠ [])
    if sanitizedParagraphs = [] then none
    else
      some (sanitizedParagraphs.map (fun p =>
        HtmlNode.elem "p" [] [HtmlNode.text (String.mk p)]))

/-- Result of `new Readability(dom.window.document).parse()`: `content` is
the parsed structured HTML (`null` and the empty string both map to the
empty forest), `textContent` the plain text (`null` maps to `[]`). -/
structure ReadabilityArticle where
  content : Html
  textContent : List Char

/-- `ContentExtractorService.extractWithReadability` (with the library's
result supplied): prefer structured content, else synthesize paragraphs
from the plain text; sanitize either; empty sanitization results become
`null`. -/
def extractWithReadability (r : Option ReadabilityArticle) : Option Html :=
  match r with
  | none => none
  | some a =>
    if isBlankHtml a.content && decide (a.textContent = []) then none
    else if !(isBlankHtml a.content) then
      let content := sanitizeHtml a.content
      if isBlankHtml content then none else some content
    else
      match buildHtmlFromPlainText (jsTrimChars a.textContent) with
      | none => none
      | some structured =>
        let content := sanitizeHtml structured
        if isBlankHtml content then none else some content

/-- Class-attribute word match for `.name` selectors. -/
def splitWsAux (cur : List Char) : List Char → List (List Char)
  | [] => [cur.reverse]
  | c :: rest =>
      if isJsWs c then cur.reverse :: splitWsAux [] rest
      else splitWsAux (c :: cur) rest

/-- Whitespace-separated words of a character list. -/
def wordsOf (l : List Char) : List (List Char) :=
  (splitWsAux [] l).filter (fun w => w ≠ [])

/-- Does an element with these attributes carry the given class? -/
def classMatches (attrs : List (String × String)) (cls : String) : Bool :=
  match attrs.find? (fun p => p.1 == "class") with
  | some p => (wordsOf p.2.data).contains cls.data
  | none => false

/-- Selector match for the container cascade: `.name` is a class selector,
anything else a tag selector. -/
def selMatches (sel : String) (tag : String) (attrs : List (String × String)) : Bool :=
  if jsStartsWith sel "." then classMatches attrs (String.mk (sel.data.drop 1))
  else tag == sel

/-- `$(sel).first()` in document order, returning the inner fragment
(`container.html()`). -/
def findContainer (sel : String) : List HtmlNode → Option Html
  | [] => none
  | HtmlNode.text _ :: rest => findContainer sel rest
  | HtmlNode.elem t a c :: rest =>
      if selMatches sel t a then some c
      else
        match findContainer sel c with
        | some r => some r
        | none => findContainer sel rest

/-- The PREFERRED_CONTAINERS loop of `extractFallbackHtml`; the implicit
`body` of a full-document cheerio load wraps the whole fragment. -/
def tryContainers (d : Html) : List String → Option Html
  | [] => none
  | sel :: rest =>
    let inner : Option Html := if sel == "body" then some d else findContainer sel d
    match inner with
    | some frag =>
        if !frag.isEmpty then some (sanitizeHtml frag) else tryContainers d rest
    | none => tryContainers d rest

/-- `ContentExtractorService.extractFallbackHtml`: strip disallowed
elements from the document, take the first non-empty preferred container,
sanitize its inner HTML; the trailing `$('body').html() || $('body').text()`
line only fires on an empty document. -/
def extractFallbackHtml (doc : Html) : Option Html :=
  let d := removeElemsList STRIP_SELECTORS doc
  match tryContainers d PREFERRED_CONTAINERS with
  | some r => some r
  | none => if d.isEmpty then none else some (sanitizeHtml d)

/-- Error conditions of `extract` (both raised as `ParseError`s). -/
inductive ExtractErr where
  | EmptyInput
  | ExtractionFailed
  deriving DecidableEq, Repr

/-- Tail of `extract` after the readability attempt: structural fallback,
validity check, else `ExtractionFailed`. -/
def extractRest (html : Html) : Except ExtractErr Html :=
  match extractFallbackHtml html with
  | some fallback =>
      if isValidContent fallback then Except.ok fallback
      else Except.error ExtractErr.ExtractionFailed
  | none => Except.error ExtractErr.ExtractionFailed

/-- `ContentExtractorService.extract`: blank guard, readability strategy,
structural fallback, `ExtractionFailed`. -/
def ContentExtractorService.extract (html : Html) (r : Option ReadabilityArticle) :
    Except ExtractErr Html :=
  if isBlankHtml html then Except.error ExtractErr.EmptyInput
  else
    match extractWithReadability r with
    | some readable =>
        if isValidContent readable then Except.ok readable else extractRest html
    | none => extractRest html

/-! ### Sanitization invariants -/

/-- Attribute allowed by the sanitizer: not an `on*` handler, not `style`. -/
def attrOk (p : String × String) : Bool := !(jsStartsWith p.1 "on" || p.1 == "style")

/-- No disallowed element anywhere in the forest. -/
def noStrippedList : List HtmlNode → Bool
  | [] => true
  | HtmlNode.text _ :: rest => noStrippedList rest
  | HtmlNode.elem t _ c :: rest =>
      !STRIP_SELECTORS.contains t && noStrippedList c && noStrippedList rest

/-- Every attribute of every element is allowed. -/
def cleanAttrsList : List HtmlNode → Bool
  | [] => true
  | HtmlNode.text _ :: rest => cleanAttrsList rest
  | HtmlNode.elem _ a c :: rest =>
      a.all attrOk && cleanAttrsList c && cleanAttrsList rest

/-- No paragraph element whose text content trims to empty. -/
def noBlankPList : List HtmlNode → Bool
  | [] => true
  | HtmlNode.text _ :: rest => noBlankPList rest
  | HtmlNode.elem t _ c :: rest =>
      (!(t == "p") || !(isBlankChars (listText c))) &&
        noBlankPList c && noBlankPList rest

/-- Stripping the disallowed tags establishes their absence. -/
theorem removeElems_noStripped (l : List HtmlNode) :
    noStrippedList (removeElemsList STRIP_SELECTORS l) = true := by
  induction l using removeElemsList.induct STRIP_SELECTORS <;>
    simp_all [removeElemsList, noStrippedList]

/-- The filtered attribute list only holds allowed attributes. -/
theorem cleanAttrs_all (a : List (String × String)) : (cleanAttrs a).all attrOk = true := by
  rw [List.all_eq_true]
  intro x hx
  exact (List.mem_filter.mp hx).2

/-- The attribute pass preserves absence of disallowed tags. -/
theorem stripAttrs_pres_noStripped (l : List HtmlNode) (h : noStrippedList l = true) :
    noStrippedList (stripAttrsList l) = true := by
  induction l using stripAttrsList.induct <;> simp_all [stripAttrsList, noStrippedList]

/-- The attribute pass establishes attribute cleanliness. -/
theorem stripAttrs_clean (l : List HtmlNode) : cleanAttrsList (stripAttrsList l) = true := by
  induction l using stripAttrsList.induct <;>
    simp_all [stripAttrsList, cleanAttrsList, cleanAttrs_all]

/-- Blankness distributes over concatenation. -/
theorem isBlankChars_append (x y : List Char) :
    isBlankChars (x ++ y) = (isBlankChars x && isBlankChars y) := by
  simp [isBlankChars, List.all_append]

/-- The paragraph pass removes only all-whitespace text: a forest whose
processed text is blank was blank already. -/
theorem removeEmptyPs_blank (l : List HtmlNode)
    (h : isBlankChars (listText (removeEmptyPs l)) = true) :
    isBlankChars (listText l) = true := by
  induction l using removeEmptyPs.induct with
  | case1 => simp [listText, isBlankChars]
  | case2 s rest ih => simp_all [removeEmptyPs, listText, isBlankChars_append]
  | case3 t a c rest hc ih =>
    simp only [removeEmptyPs] at h
    rw [if_pos hc] at h
    simp only [Bool.and_eq_true] at hc
    simp [listText, isBlankChars_append, ih h, hc.2]
  | case4 t a c rest hc ihc ihr =>
    simp only [removeEmptyPs] at h
    rw [if_neg hc] at h
    simp only [listText, isBlankChars_append, Bool.and_eq_true] at h ⊢
    exact ⟨ihc h.1, ihr h.2⟩

/-- The paragraph pass preserves absence of disallowed tags. -/
theorem removeEmptyPs_pres_noStripped (l : List HtmlNode) (h : noStrippedList l = true) :
    noStrippedList (removeEmptyPs l) = true := by
  induction l using removeEmptyPs.induct with
  | case1 => simp [removeEmptyPs, noStrippedList]
  | case2 s rest ih => simp_all [removeEmptyPs, noStrippedList]
  | case3 t a c rest hc ihr =>
    simp only [removeEmptyPs]
    rw [if_pos hc]
    simp_all [noStrippedList]
  | case4 t a c rest hc ihc ihr =>
    simp only [removeEmptyPs]
    rw [if_neg hc]
    simp_all [noStrippedList]

/-- The paragraph pass preserves attribute cleanliness. -/
theorem removeEmptyPs_pres_clean (l : List HtmlNode) (h : cleanAttrsList l = true) :
    cleanAttrsList (removeEmptyPs l) = true := by
  induction l using removeEmptyPs.induct with
  | case1 => simp [removeEmptyPs, cleanAttrsList]
  | case2 s rest ih => simp_all [removeEmptyPs, cleanAttrsList]
  | case3 t a c rest hc ihr =>
    simp only [removeEmptyPs]
    rw [if_pos hc]
    simp_all [cleanAttrsList]
  | case4 t a c rest hc ihc ihr =>
    simp only [removeEmptyPs]
    rw [if_neg hc]
    simp_all [cleanAttrsList]

/-- After the paragraph pass, no paragraph has blank text. -/
theorem removeEmptyPs_noBlankP (l : List HtmlNode) :
    noBlankPList (removeEmptyPs l) = true := by
  induction l using removeEmptyPs.induct with
  | case1 => simp [removeEmptyPs, noBlankPList]
  | case2 s rest ih => simp_all [removeEmptyPs, noBlankPList]
  | case3 t a c rest h ihr => simp_all [removeEmptyPs, noBlankPList]
  | case4 t a c rest h ihc ihr =>
    simp only [removeEmptyPs]
    rw [if_neg h]
    simp only [noBlankPList, Bool.and_eq_true]
    refine ⟨⟨?_, ihc⟩, ihr⟩
    by_cases hp : (t == "p") = true
    · have hcf : isBlankChars (listText c) = false := by
        rcases Bool.eq_false_or_eq_true (isBlankChars (listText c)) with ht | hf
        · exact absurd (by simp [hp, ht]) h
        · exact hf
      have h2 : isBlankChars (listText (removeEmptyPs c)) = false := by
        rcases Bool.eq_false_or_eq_true
            (isBlankChars (listText (removeEmptyPs c))) with ht | hf
        · rw [removeEmptyPs_blank c ht] at hcf
          cases hcf
        · exact hf
      simp [hp, h2]
    · simp [Bool.not_eq_true] at hp
      simp [hp]

/-- `sanitizeHtml` output carries all three sanitization invariants. -/
theorem sanitizeHtml_ok (x : Html) :
    noStrippedList (sanitizeHtml x) = true ∧
    cleanAttrsList (sanitizeHtml x) = true ∧
    noBlankPList (sanitizeHtml x) = true := by
  unfold sanitizeHtml
  split
  · exact ⟨by simp [noStrippedList], by simp [cleanAttrsList], by simp [noBlankPList]⟩
  · exact ⟨removeEmptyPs_pres_noStripped _
        (stripAttrs_pres_noStripped _ (removeElems_noStripped _)),
      removeEmptyPs_pres_clean _ (stripAttrs_clean _),
      removeEmptyPs_noBlankP _⟩

/-- Every fragment produced by the readability strategy is a `sanitizeHtml`
output. -/
theorem extractWithReadability_sanitized (r : Option ReadabilityArticle) (c : Html)
    (h : extractWithReadability r = some c) : ∃ x, c = sanitizeHtml x := by
  unfold extractWithReadability at h
  cases r with
  | none => cases h
  | some a =>
    simp only at h
    split at h
    · cases h
    · split at h
      · split at h
        · cases h
        · exact ⟨a.content, (Option.some.inj h).symm⟩
      · split at h
        · cases h
        · split at h
          · cases h
          · rename_i structured _ _
            exact ⟨structured, (Option.some.inj h).symm⟩

/-- Every fragment produced by the container loop is a `sanitizeHtml`
output. -/
theorem tryContainers_sanitized (d : Html) (sels : List String) (c : Html)
    (h : tryContainers d sels = some c) : ∃ x, c = sanitizeHtml x := by
  induction sels with
  | nil => cases h
  | cons sel rest ih =>
    unfold tryContainers at h
    simp only at h
    split at h
    · split at h
      · rename_i frag _ _
        exact ⟨frag, (Option.some.inj h).symm⟩
      · exact ih h
    · exact ih h

/-- Every fragment produced by the structural fallback is a `sanitizeHtml`
output. -/
theorem extractFallbackHtml_sanitized (doc : Html) (c : Html)
    (h : extractFallbackHtml doc = some c) : ∃ x, c = sanitizeHtml x := by
  unfold extractFallbackHtml at h
  dsimp only at h
  split at h
  · rename_i r hr
    cases h
    exact tryContainers_sanitized _ _ _ hr
  · split at h
    · cases h
    · cases h
      exact ⟨_, rfl⟩

/-- Every fragment returned by `extractRest` is a `sanitizeHtml` output. -/
theorem extractRest_sanitized (html : Html) (s : Html)
    (h : extractRest html = Except.ok s) : ∃ x, s = sanitizeHtml x := by
  unfold extractRest at h
  split at h
  · split at h
    · rename_i fallback hfb _
      exact (Except.ok.inj h) ▸ extractFallbackHtml_sanitized _ _ hfb
    · cases h
  · cases h

/-! ### Claim theorems for the content extractor -/

/-- Validity components (unfolded validity check). -/
theorem isValidContent_spec (s : Html) (h : isValidContent s = true) :
    20 ≤ (jsTrimChars (listText s)).length ∧
    hasWordRun (jsTrimChars (listText s)) = true := by
  unfold isValidContent at h
  cases s with
  | nil => cases h
  | cons n rest =>
    simp only [Bool.and_eq_true, decide_eq_true_eq] at h
    exact h

/-- Every `extractRest` success passes the validity check. -/
theorem extractRest_ok_valid (html : Html) (s : Html)
    (h : extractRest html = Except.ok s) : isValidContent s = true := by
  unfold extractRest at h
  split at h
  · split at h
    · rename_i hv
      cases h
      exact hv
    · cases h
  · cases h

/-- Every `extract` success passes the validity check. -/
theorem extract_ok_valid (html : Html) (r : Option ReadabilityArticle) (s : Html)
    (h : ContentExtractorService.extract html r = Except.ok s) :
    isValidContent s = true := by
  unfold ContentExtractorService.extract at h
  split at h
  · cases h
  · split at h
    · split at h
      · rename_i hv
        cases h
        exact hv
      · exact extractRest_ok_valid _ _ h
    · exact extractRest_ok_valid _ _ h

/-- C8: `extract` fails with EmptyInput on blank html; any returned fragment
passes the validity check (trimmed plain text of at least 20 characters
containing a run of 3 or more word characters); and when neither the
readability strategy nor the structural fallback yields content passing the
check, it fails with ExtractionFailed. -/
theorem c8_extract_contract (html : Html) (r : Option ReadabilityArticle) :
    (isBlankHtml html = true →
      ContentExtractorService.extract html r = Except.error ExtractErr.EmptyInput) ∧
    (∀ s, ContentExtractorService.extract html r = Except.ok s →
      isValidContent s = true ∧
      20 ≤ (jsTrimChars (listText s)).length ∧
      hasWordRun (jsTrimChars (listText s)) = true) ∧
    (isBlankHtml html = false →
      (∀ c2, extractWithReadability r = some c2 → isValidContent c2 = false) →
      (∀ c2, extractFallbackHtml html = some c2 → isValidContent c2 = false) →
      ContentExtractorService.extract html r =
        Except.error ExtractErr.ExtractionFailed) := by
  refine ⟨?_, ?_, ?_⟩
  · intro hb
    unfold ContentExtractorService.extract
    rw [if_pos hb]
  · intro s h
    have hv := extract_ok_valid _ _ _ h
    exact ⟨hv, (isValidContent_spec s hv).1, (isValidContent_spec s hv).2⟩
  · intro hb hr hf
    have hrest : extractRest html = Except.error ExtractErr.ExtractionFailed := by
      unfold extractRest
      split
      · rename_i f hfb
        simp [hf f hfb]
      · rfl
    unfold ContentExtractorService.extract
    rw [if_neg (by simp [hb])]
    split
    · rename_i c2 hw
      simp [hr c2 hw, hrest]
    · exact hrest

/-- C9: every fragment returned by `extract` satisfies the sanitization
invariants: no disallowed element (script, style, nav, iframe, noscript,
footer, header), no attribute starting `on`, no `style` attribute, and no
paragraph whose trimmed text is empty. -/
theorem c9_extract_output_sanitized (html : Html) (r : Option ReadabilityArticle)
    (s : Html) (h : ContentExtractorService.extract html r = Except.ok s) :
    noStrippedList s = true ∧ cleanAttrsList s = true ∧ noBlankPList s = true := by
  have hs : ∃ x, s = sanitizeHtml x := by
    unfold ContentExtractorService.extract at h
    split at h
    · cases h
    · split at h
      · split at h
        · rename_i readable hw _
          cases h
          exact extractWithReadability_sanitized _ _ hw
        · exact extractRest_sanitized _ _ h
      · exact extractRest_sanitized _ _ h
  obtain ⟨x, rfl⟩ := hs
  exact sanitizeHtml_ok x

/-- Concrete readability output for the extractor witnesses. -/
def artContent : Html :=
  [HtmlNode.elem "div" [] [HtmlNode.text "Nachrichten aus Karlsruhe"]]

/-- Concrete non-blank detail page. -/
def docSmall : Html := [HtmlNode.elem "div" [] []]

/-- Readability article carrying `artContent`. -/
def artGood : ReadabilityArticle := { content := artContent, textContent := [] }

/-- Concrete detail page whose content is too short to be valid. -/
def docBad : Html := [HtmlNode.elem "p" [] [HtmlNode.text "hi"]]

/-- The witness content is not blank. -/
theorem artContent_nonblank : isBlankHtml artContent = false := by
  simp [isBlankHtml, artContent]

/-- Sanitization leaves the already-clean witness content unchanged. -/
theorem artContent_sanitize : sanitizeHtml artContent = artContent := by
  simp [sanitizeHtml, removeElemsList, stripAttrsList, removeEmptyPs, cleanAttrs,
    isBlankHtml, isBlankChars, listText, STRIP_SELECTORS, attrOk, jsStartsWith,
    isJsWs, artContent]

set_option maxRecDepth 4000 in
/-- The witness content passes the validity check. -/
theorem artContent_valid : isValidContent artContent = true := by
  simp [isValidContent, listText, jsTrimChars, isJsWs, isWordChar,
    hasWordRun, hasWordRunAux, artContent]

/-- Concrete evaluation of the extractor through the readability path. -/
theorem extract_viaReadability :
    ContentExtractorService.extract docSmall (some artGood) = Except.ok artContent := by
  have h2 : extractWithReadability (some artGood) = some artContent := by
    simp [extractWithReadability, artGood, artContent_nonblank, artContent_sanitize]
  unfold ContentExtractorService.extract
  rw [if_neg (by simp [isBlankHtml, docSmall])]
  rw [h2]
  simp [artContent_valid]

/-- Stripping touches nothing in the short page. -/
theorem docBad_strip : removeElemsList STRIP_SELECTORS docBad = docBad := by
  simp [removeElemsList, STRIP_SELECTORS, docBad]

/-- The container loop settles on the implicit body of the short page. -/
theorem docBad_containers : tryContainers docBad PREFERRED_CONTAINERS = some docBad := by
  simp [tryContainers, PREFERRED_CONTAINERS, findContainer, selMatches, classMatches,
    jsStartsWith, wordsOf, splitWsAux, isJsWs, docBad, sanitizeHtml, removeElemsList,
    stripAttrsList, removeEmptyPs, cleanAttrs, isBlankHtml, isBlankChars, listText,
    STRIP_SELECTORS, attrOk]

/-- Concrete evaluation of the structural fallback on the short page. -/
theorem extractFallback_docBad : extractFallbackHtml docBad = some docBad := by
  unfold extractFallbackHtml
  dsimp only
  rw [docBad_strip, docBad_containers]

/-- The short content fails the validity check. -/
theorem docBad_invalid : isValidContent docBad = false := by
  simp [isValidContent, listText, jsTrimChars, docBad, isJsWs]

/-- C8 witness: blank input, a successful concrete extraction, and a
concrete too-short page ending in ExtractionFailed. -/
theorem c8_extract_contract_witness :
    ContentExtractorService.extract [] none = Except.error ExtractErr.EmptyInput ∧
    isValidContent artContent = true ∧
    ContentExtractorService.extract docBad none =
      Except.error ExtractErr.ExtractionFailed :=
  ⟨(c8_extract_contract [] none).1 (by decide),
   ((c8_extract_contract docSmall (some artGood)).2.1 artContent
      extract_viaReadability).1,
   (c8_extract_contract docBad none).2.2 (by decide)
     (fun c2 hc => by simp [extractWithReadability] at hc)
     (fun c2 hc => by
       rw [extractFallback_docBad] at hc
       cases hc
       exact docBad_invalid)⟩

/-- C9 witness: the concrete extraction output satisfies the sanitization
invariants. -/
theorem c9_extract_output_sanitized_witness :
    noStrippedList artContent = true ∧ cleanAttrsList artContent = true ∧
    noBlankPList artContent = true :=
  c9_extract_output_sanitized docSmall (some artGood) artContent extract_viaReadability

/-! ## Listing parser (`src/services/parser.service.ts`)

`parseArticles` loads the listing HTML, locates candidate elements through
the injected `ArticleElementFinder` and builds previews per element inside
a try/catch.  The cheerio-level queries of the injected collaborators are
abstracted per element: an `ElemView` carries the outcome of each
extraction step (a value, or the exception it throws), and the injected
`LinkNormalizer` is a pair of functions, mirroring the source's
constructor-injected dependencies. -/

deriving instance DecidableEq for Except

/-- Outcome view of one candidate element: the results of the injected
text-extractor calls made by `parseArticleElement` (`Except.error` marks an
exception thrown during that step). -/
structure ElemView where
  titleText : Except String String
  rawHref : Except String String
  descriptionText : Except String String
  dateText : Except String String
  deriving DecidableEq, Repr

/-- Injected `LinkNormalizer` collaborator (URL resolution is external). -/
structure LinkNormalizerI where
  normalize : String → String
  isValid : String → Bool

/-- ArticlePreview as produced by the listing parser. -/
structure ArticlePreview where
  title : String
  date : DateV
  link : String
  description : String
  deriving DecidableEq, Repr

/-- Error conditions of `parseArticles` (both `ParseError`s). -/
inductive ListingErr where
  | EmptyInput
  | NoElementsFound
  deriving DecidableEq, Repr

/-- ARTICLE_SELECTORS from `src/config/selectors.ts`. -/
def ARTICLE_SELECTORS : List String :=
  [".karlTabs__tab-pane.show.active .news-item",
   ".newsroom .news-item",
   ".newsroom__item-wrapper .news-item",
   ".article",
   "[class*=\"news\"]",
   "[class*=\"meldung\"]",
   ".teaser",
   "[class*=\"teaser\"]",
   "article",
   ".content-item",
   ".list-item"]

/-- `ArticleElementFinder.findElements` from
`src/utils/article-finder.utils.ts`: the `for (const selector of selectors)`
loop queries each selector in order and returns the first collection with
`found.length > 0`; falling off the loop throws the
`No article elements found` `ParseError`. -/
def findElements (doc : String → List ElemView) : List String → Except ListingErr (List ElemView)
  | [] => Except.error ListingErr.NoElementsFound
  | sel :: rest =>
    let found := doc sel
    if !found.isEmpty then Except.ok found else findElements doc rest

/-- The body of the try block of `ParserService.parseArticleElement`:
title cascade (skip on empty), link normalization and validity (skip on
invalid), description, date text, date parse. -/
def parseArticleElementCore (nrm : LinkNormalizerI) (now : Int) (e : ElemView) :
    Except String (Option ArticlePreview) := do
  let title ← e.titleText
  if title = "" then
    return none
  else
    let rawLink ← e.rawHref
    let link := nrm.normalize rawLink
    if !(nrm.isValid link) then
      return none
    else
      let description ← e.descriptionText
      let dateText ← e.dateText
      let date := (GermanDateParser.parse dateText now).1
      return some
        { title := jsTrim title, date := date, link := link,
          description := jsTrim description }

/-- `ParserService.parseArticleElement`: the catch clause logs a warning
and yields `null`, so an exception only skips this element. -/
def parseArticleElement (nrm : LinkNormalizerI) (now : Int) (e : ElemView) :
    Option ArticlePreview :=
  match parseArticleElementCore nrm now e with
  | Except.ok r => r
  | Except.error _ => none

/-- Body of the `elements.each` loop of `parseArticles`: push the preview
when one was built. -/
def pushPreview (nrm : LinkNormalizerI) (now : Int) (acc : List ArticlePreview)
    (el : ElemView) : List ArticlePreview :=
  match parseArticleElement nrm now el with
  | some a => acc ++ [a]
  | none => acc

/-- `ParserService.parseArticles`: blank guard, element finder over the
selector cascade (its `ParseError` is rethrown as-is by the catch clause),
then the `elements.each` push loop. -/
def ParserService.parseArticles (html : String) (doc : String → List ElemView)
    (nrm : LinkNormalizerI) (now : Int) : Except ListingErr (List ArticlePreview) :=
  if jsTrimChars html.data = [] then Except.error ListingErr.EmptyInput
  else
    match findElements doc ARTICLE_SELECTORS with
    | Except.error e => Except.error e
    | Except.ok elements =>
      Except.ok (elements.foldl (pushPreview nrm now) [])

/-- The push loop over optional results equals `filterMap`. -/
theorem push_fold_eq_filterMap (nrm : LinkNormalizerI) (now : Int)
    (l : List ElemView) (acc : List ArticlePreview) :
    l.foldl (pushPreview nrm now) acc = acc ++ l.filterMap (parseArticleElement nrm now) := by
  induction l generalizing acc with
  | nil => simp
  | cons x l ih =>
    rw [List.foldl_cons, ih]
    unfold pushPreview
    cases h : parseArticleElement nrm now x <;> simp [List.filterMap_cons, h]

/-- A cascade with no matches ends in `NoElementsFound`. -/
theorem findElements_none (doc : String → List ElemView) (sels : List String)
    (h : ∀ sel ∈ sels, doc sel = []) :
    findElements doc sels = Except.error ListingErr.NoElementsFound := by
  induction sels with
  | nil => rfl
  | cons sel rest ih =>
    unfold findElements
    rw [h sel (List.mem_cons_self sel rest)]
    simp [ih (fun s hs => h s (List.mem_cons_of_mem _ hs))]

/-- C7: when no selector of the cascade matches any element, the listing
parse terminates with NoElementsFound; when the finder succeeds, the result
is exactly the per-element previews in document order of the matched
elements, where an element whose extraction throws yields no preview and no
error — dropping precisely that element from the output. -/
theorem c7_listing_error_scoping (html : String) (doc : String → List ElemView)
    (nrm : LinkNormalizerI) (now : Int) :
    (jsTrimChars html.data ≠ [] → (∀ sel ∈ ARTICLE_SELECTORS, doc sel = []) →
      ParserService.parseArticles html doc nrm now =
        Except.error ListingErr.NoElementsFound) ∧
    (∀ elements, jsTrimChars html.data ≠ [] →
      findElements doc ARTICLE_SELECTORS = Except.ok elements →
      ParserService.parseArticles html doc nrm now =
        Except.ok (elements.filterMap (parseArticleElement nrm now))) ∧
    (∀ e msg, parseArticleElementCore nrm now e = Except.error msg →
      parseArticleElement nrm now e = none) ∧
    (∀ l1 l2 : List ElemView, ∀ e msg,
      parseArticleElementCore nrm now e = Except.error msg →
      (l1 ++ e :: l2).filterMap (parseArticleElement nrm now) =
        l1.filterMap (parseArticleElement nrm now) ++
          l2.filterMap (parseArticleElement nrm now)) := by
  refine ⟨?_, ?_, ?_, ?_⟩
  · intro hb hs
    unfold ParserService.parseArticles
    rw [if_neg hb, findElements_none doc _ hs]
  · intro elements hb hf
    unfold ParserService.parseArticles
    rw [if_neg hb, hf]
    have hp := push_fold_eq_filterMap nrm now elements []
    simp only [List.nil_append] at hp
    dsimp only
    rw [hp]
  · intro e msg h
    unfold parseArticleElement
    rw [h]
  · intro l1 l2 e msg h
    have he : parseArticleElement nrm now e = none := by
      unfold parseArticleElement
      rw [h]
    simp [List.filterMap_append, List.filterMap_cons, he]

/-- Fixtures for the C7 witness: a document with no matching elements. -/
def docNone : String → List ElemView := fun _ => []

/-- A candidate element whose every extraction step succeeds. -/
def elemGood : ElemView :=
  { titleText := Except.ok "Erste Meldung",
    rawHref := Except.ok "https://www.karlsruhe.de/a",
    descriptionText := Except.ok "Beschreibung eins",
    dateText := Except.ok "15. Januar 2024" }

/-- A candidate element whose title extraction throws. -/
def elemBad : ElemView :=
  { titleText := Except.error "boom",
    rawHref := Except.ok "https://www.karlsruhe.de/b",
    descriptionText := Except.ok "Beschreibung zwei",
    dateText := Except.ok "16. Januar 2024" }

/-- A document whose fourth cascade selector matches two elements. -/
def docOne : String → List ElemView := fun sel =>
  if sel = ".article" then [elemGood, elemBad] else []

/-- Identity-like link collaborator for the witness. -/
def nrmId : LinkNormalizerI :=
  { normalize := fun s => s, isValid := fun s => !s.data.isEmpty }

/-- C7 witness: a concrete empty cascade ends in NoElementsFound, and a
concrete run with one throwing element keeps the other element's preview. -/
theorem c7_listing_error_scoping_witness :
    ParserService.parseArticles "<div>leer</div>" docNone nrmId 42 =
      Except.error ListingErr.NoElementsFound ∧
    ParserService.parseArticles "<div>x</div>" docOne nrmId 42 =
      Except.ok ([elemGood, elemBad].filterMap (parseArticleElement nrmId 42)) ∧
    parseArticleElement nrmId 42 elemBad = none :=
  ⟨(c7_listing_error_scoping "<div>leer</div>" docNone nrmId 42).1
      (by decide) (by decide),
   (c7_listing_error_scoping "<div>x</div>" docOne nrmId 42).2.1
      [elemGood, elemBad] (by decide) (by decide),
   (c7_listing_error_scoping "<div>x</div>" docOne nrmId 42).2.2.1
      elemBad "boom" (by decide)⟩
